import Mathlib

/-!
The eirinix-sample command-line bootstrap (`main.go`).

A shallow embedding of `src/main.go`: the root command's `Run` closure and
`main`, over a small model of the Go runtime (traces of observable calls,
`os.Exit`, `defer`) and of the libraries the program calls (pflag, viper,
cast, zap, eirinix).
-/

namespace EirinixSample

/-! ## Observable calls and process outcomes -/

/-- The process-wide logger `log` (a `*zap.SugaredLogger`), created once in `main`. -/
inductive Logger where
  | zapDevelopment
  deriving DecidableEq, Repr

/-- The extension value `helloworld.New()` returns. -/
inductive Extension where
  | helloworld
  deriving DecidableEq, Repr

/-- The struct `eirinix.ManagerOptions`, with the fields `Run` fills in. -/
structure ManagerOptions where
  Namespace : String
  Host : String
  Port : Int
  KubeConfig : String
  Logger : Logger
  OperatorFingerprint : String
  deriving DecidableEq, Repr

/-- One observable call made by the program, in the order it is made. -/
inductive Event where
  | Infof (msg : String)
  | Fatal (msg : String)
  | Sync
  | NewManager (opts : ManagerOptions)
  | AddExtension (ext : Extension)
  | Start
  | GologFatal (msg : String)
  | Help
  deriving DecidableEq, Repr

/-- How a statement ends: control goes on with a value, the process is ended
by `os.Exit`, or the call never returns. -/
inductive Step (α : Type) where
  | next (a : α)
  | exit (code : Nat)
  | block

/-- A Go statement sequence: it extends the trace of calls made so far and
ends in a `Step`. -/
def Proc (α : Type) : Type := List Event → Step α × List Event

/-- Sequencing: what follows a statement runs only when control goes on. -/
def Proc.bind {α β : Type} (p : Proc α) (f : α → Proc β) : Proc β := fun t =>
  match p t with
  | (Step.next a, t1) => f a t1
  | (Step.exit c, t1) => (Step.exit c, t1)
  | (Step.block, t1) => (Step.block, t1)

instance : Monad Proc where
  pure a := fun t => (Step.next a, t)
  bind := Proc.bind

/-- Record one call in the trace. -/
def emit (e : Event) : Proc Unit := fun t => (Step.next (), t ++ [e])

/-- Go's `os.Exit(code)`: the program terminates immediately. -/
def osExit {α : Type} (code : Nat) : Proc α := fun t => (Step.exit code, t)

/-- Go's `defer d` at the head of a function body: `d` runs when the body
returns; deferred functions are not run when the process ends through
`os.Exit`, nor while a call in the body never returns. -/
def withDefer {α : Type} (d : Proc Unit) (body : Proc α) : Proc α := fun t =>
  match body t with
  | (Step.next a, t1) =>
    match d t1 with
    | (Step.next _, t2) => (Step.next a, t2)
    | (Step.exit c, t2) => (Step.exit c, t2)
    | (Step.block, t2) => (Step.block, t2)
  | (Step.exit c, t1) => (Step.exit c, t1)
  | (Step.block, t1) => (Step.block, t1)

/-- How the whole process ends. -/
inductive Outcome where
  | exited (code : Nat)
  | blocked
  deriving DecidableEq, Repr

/-- The observable behaviour of a run of the program. -/
structure Exec where
  trace : List Event
  outcome : Outcome
  deriving DecidableEq, Repr

/-- Run a program body from the empty trace; a body that returns ends the
process with status 0. -/
def exec (p : Proc Unit) : Exec :=
  match p [] with
  | (Step.next _, t) => ⟨t, Outcome.exited 0⟩
  | (Step.exit c, t) => ⟨t, Outcome.exited c⟩
  | (Step.block, t) => ⟨t, Outcome.blocked⟩

/-! ## zap and the standard `log` package -/

/-- The call `log.Infof(...)` of the sugared logger, with the formatted message. -/
def logInfof (msg : String) : Proc Unit := emit (Event.Infof msg)

/-- The call `log.Fatal(...)` of the sugared logger: it logs the message, then
calls `os.Exit(1)`. -/
def logFatal {α : Type} (msg : String) : Proc α := do
  emit (Event.Fatal msg)
  osExit 1

/-- The call `log.Sync()` of the sugared logger. -/
def logSync : Proc Unit := emit Event.Sync

/-- The standard library's `log.Fatal` / `log.Fatalf` (imported as `golog`):
print, then `os.Exit(1)`. -/
def gologFatal {α : Type} (msg : String) : Proc α := do
  emit (Event.GologFatal msg)
  osExit 1

/-- What `fmt.Sprint(err)` prints for an `error` value: `<nil>` for the nil
error, the error's text otherwise. -/
def sprintError : Option String → String
  | none => "<nil>"
  | some e => e

/-! ## eirinix: the external manager -/

/-- What the manager's blocking `Start()` does on this run: it returns (the
nil error or an error), or it never returns. -/
inductive StartResult where
  | returns (err : Option String)
  | blocks
  deriving DecidableEq, Repr

/-- The manager object `eirinix.NewManager` returns. -/
structure Manager where
  Options : ManagerOptions
  Extensions : List Extension
  deriving DecidableEq, Repr

/-- The call `eirinix.NewManager(opts)`. -/
def NewManager (opts : ManagerOptions) : Proc Manager := do
  emit (Event.NewManager opts)
  pure ⟨opts, []⟩

/-- The call `x.AddExtension(e)`. -/
def Manager.AddExtension (x : Manager) (e : Extension) : Proc Manager := do
  emit (Event.AddExtension e)
  pure { x with Extensions := x.Extensions ++ [e] }

/-- The call `x.Start()`, whose result is given by the run's `StartResult`. -/
def Manager.Start (_x : Manager) (r : StartResult) : Proc (Option String) := do
  emit Event.Start
  match r with
  | StartResult.returns err => pure err
  | StartResult.blocks => fun t => (Step.block, t)

/-! ## pflag: the command's persistent flag set -/

/-- A `pflag.Flag` of string type. -/
structure Flag where
  Name : String
  Shorthand : String
  Usage : String
  Value : String
  DefValue : String
  Changed : Bool
  deriving DecidableEq, Repr

/-- A `pflag.FlagSet`: the flags in the order they were declared. -/
abbrev FlagSet : Type := List Flag

/-- The call `pf.StringP(name, shorthand, value, usage)`: declare a string flag
whose value starts as the default. -/
def FlagSet.StringP (pf : FlagSet) (name shorthand value usage : String) : FlagSet :=
  pf ++ [{ Name := name, Shorthand := shorthand, Usage := usage,
           Value := value, DefValue := value, Changed := false }]

/-- The call `pf.Lookup(name)`: the flag of that name, nil when there is none. -/
def FlagSet.Lookup (pf : FlagSet) (name : String) : Option Flag :=
  pf.find? (fun f => f.Name = name)

/-- The command line as pflag reads it: for the long name of a flag, the value
given for it on the command line (under its long or short form), `none` when
the flag does not occur. -/
abbrev Args : Type := String → Option String

/-- What parsing the command line does to one flag: a flag that occurs takes
the given value and is marked as changed, a flag that does not occur keeps its
default. -/
def Flag.parse (given : Args) (f : Flag) : Flag :=
  match given f.Name with
  | some val => { f with Value := val, Changed := true }
  | none => f

/-- Parsing the command line into the flag set. -/
def FlagSet.Parse (pf : FlagSet) (given : Args) : FlagSet :=
  pf.map (Flag.parse given)

/-! ## viper: the configuration registry -/

/-- The variables of the process environment as the configuration library
reports them: `some val` for a variable it finds set, with its value. -/
abbrev Environ : Type := String → Option String

/-- Modelled from the spec: the viper library is not part of the sources. The
registry keeps, per key, the flag bound with `BindPFlag` (by name: viper holds
a pointer to the flag, so it sees what parsing later stores in it) and the
environment variable bound with `BindEnv`. -/
structure Viper where
  pflags : List (String × String)
  env : List (String × String)
  deriving DecidableEq, Repr

/-- The registry before any binding. -/
def Viper.New : Viper := ⟨[], []⟩

/-- Go's `strings.ToUpper` (standard library, outside the repository), here on
the ASCII letters that option keys are made of. -/
def ToUpper (s : String) : String := String.mk (s.toList.map Char.toUpper)

/-- Modelled from the spec: the call `viper.BindPFlag(key, flag)`; a nil flag
binds nothing (the error it returns is ignored by `main`). -/
def Viper.BindPFlag (v : Viper) (key : String) (flag : Option Flag) : Viper :=
  match flag with
  | some f => { v with pflags := (key, f.Name) :: v.pflags }
  | none => v

/-- Modelled from the spec: the call `viper.BindEnv(key)` or
`viper.BindEnv(key, envName)`; with the key alone the variable is the key in
upper case (the table of the spec: `kubeconfig` is bound to `KUBECONFIG`). -/
def Viper.BindEnv (v : Viper) (input : List String) : Viper :=
  match input with
  | [] => v
  | [key] => { v with env := (key, ToUpper key) :: v.env }
  | key :: envkey :: _ => { v with env := (key, envkey) :: v.env }

/-- Modelled from the spec: the lookup viper makes for a key, with precedence
flag > environment > default: the bound flag's value when the flag was given
on the command line, otherwise the bound environment variable's value when it
is set, otherwise the bound flag's default; nil when nothing is bound. -/
def Viper.find (v : Viper) (pf : FlagSet) (environ : Environ) (key : String) :
    Option String :=
  let flag := (v.pflags.lookup key).bind pf.Lookup
  match flag.filter (fun f => f.Changed) with
  | some f => some f.Value
  | none =>
    match (v.env.lookup key).bind environ with
    | some val => some val
    | none => flag.map (fun f => f.Value)

/-- Modelled from the spec: the call `viper.GetString(key)`; nil reads as the
empty string. -/
def Viper.GetString (v : Viper) (pf : FlagSet) (environ : Environ) (key : String) :
    String :=
  (v.find pf environ key).getD ""

/-! ## cast: reading a string as a 32-bit integer -/

/-- The `lower` helper of `strconv`: `c | ('x' - 'X')`. -/
def lower (c : Nat) : Nat := c ||| 0x20

/-- The `underscoreOK` loop of `strconv`; `saw` is the kind of the last
character seen (`^` start, `0` digit or base prefix, `_` underscore, `!` other). -/
def underscoreLoop (hex : Bool) : List Nat → Char → Bool
  | [], saw => saw != '_'
  | c :: r, saw =>
    if ('0'.toNat ≤ c ∧ c ≤ '9'.toNat) ∨
        (hex = true ∧ 'a'.toNat ≤ lower c ∧ lower c ≤ 'f'.toNat) then
      underscoreLoop hex r '0'
    else if c = '_'.toNat then
      if saw != '0' then false else underscoreLoop hex r '_'
    else if saw = '_' then false
    else underscoreLoop hex r '!'

/-- Go's `strconv.underscoreOK` (standard library, outside the repository):
whether the underscores of a numeral only separate digits. -/
def underscoreOK (s : List Nat) : Bool :=
  let s1 := match s with
    | c :: r => if c = '-'.toNat ∨ c = '+'.toNat then r else s
    | [] => s
  match s1 with
  | z :: c :: r =>
    if z = '0'.toNat ∧
        (lower c = 'b'.toNat ∨ lower c = 'o'.toNat ∨ lower c = 'x'.toNat) then
      underscoreLoop (decide (lower c = 'x'.toNat)) r '0'
    else underscoreLoop false s1 '^'
  | _ => underscoreLoop false s1 '^'

/-- The digit loop of `strconv.ParseUint` for a 64-bit result: the value read
so far and whether an underscore was seen; `none` on a syntax or range error. -/
def parseDigits (base : Nat) (base0 : Bool) : List Nat → Nat → Bool → Option (Nat × Bool)
  | [], n, underscores => some (n, underscores)
  | c :: r, n, underscores =>
    if c = '_'.toNat ∧ base0 = true then parseDigits base base0 r n true
    else
      let d : Option Nat :=
        if '0'.toNat ≤ c ∧ c ≤ '9'.toNat then some (c - '0'.toNat)
        else if 'a'.toNat ≤ lower c ∧ lower c ≤ 'z'.toNat then some (lower c - 'a'.toNat + 10)
        else none
      match d with
      | none => none
      | some d =>
        if d ≥ base then none
        else if n * base + d > 2 ^ 64 - 1 then none
        else parseDigits base base0 r (n * base + d) underscores

/-- Go's `strconv.ParseUint(s, 0, 0)` (standard library, outside the
repository) on a 64-bit platform: base 10 unless a `0b`, `0o`, `0x` or `0`
prefix selects another; `none` on any error. -/
def ParseUint (s : List Nat) : Option Nat :=
  if s = [] then none
  else
    let (base, digits) : Nat × List Nat :=
      match s with
      | z :: c :: r =>
        if z = '0'.toNat then
          if s.length ≥ 3 ∧ lower c = 'b'.toNat then (2, r)
          else if s.length ≥ 3 ∧ lower c = 'o'.toNat then (8, r)
          else if s.length ≥ 3 ∧ lower c = 'x'.toNat then (16, r)
          else (8, c :: r)
        else (10, s)
      | [z] => if z = '0'.toNat then (8, []) else (10, s)
      | [] => (10, s)
    match parseDigits base true digits 0 false with
    | none => none
    | some (n, underscores) =>
      if underscores = true ∧ underscoreOK s = false then none else some n

/-- Go's `strconv.ParseInt(s, 0, 0)` (standard library, outside the
repository) on a 64-bit platform; `none` on any error. -/
def ParseInt (s : List Nat) : Option Int :=
  match s with
  | [] => none
  | c :: r =>
    let neg : Bool := decide (c = '-'.toNat)
    let s1 := if c = '+'.toNat ∨ c = '-'.toNat then r else s
    match ParseUint s1 with
    | none => none
    | some un =>
      if neg = false ∧ un ≥ 2 ^ 63 then none
      else if neg = true ∧ un > 2 ^ 63 then none
      else some (if neg = true then - (un : Int) else (un : Int))

/-- Go's conversion `int32(v)` of a 64-bit integer: the low 32 bits, signed. -/
def int32 (v : Int) : Int := (v + 2 ^ 31) % 2 ^ 32 - 2 ^ 31

/-- Modelled from the spec: `cast.ToInt32` on a string, the conversion behind
`viper.GetInt32`, which is not part of the sources: the numeral is parsed with
`strconv.ParseInt(s, 0, 0)` and converted to `int32` (the port default `"2999"`
reads as the integer 2999 of the spec); a text that does not parse reads as 0. -/
def ToInt32 (s : String) : Int :=
  match ParseInt (s.toList.map Char.toNat) with
  | some v => int32 v
  | none => 0

/-- Modelled from the spec: the call `viper.GetInt32(key)`; nil reads as 0. -/
def Viper.GetInt32 (v : Viper) (pf : FlagSet) (environ : Environ) (key : String) : Int :=
  match v.find pf environ key with
  | some s => ToInt32 s
  | none => 0

/-! ## The program: `rootCmd.Run` and `main` -/

/-- What a run of the program depends on besides the command line: the build's
`version.Version`, the process environment, and what the manager's `Start`
does. -/
structure World where
  version : String
  environ : Environ
  start : StartResult

/-- The `Run` closure of `rootCmd`, over the registry and flag set `main` has
set up. -/
def Run (v : Viper) (pf : FlagSet) (log : Logger) (w : World) : Proc Unit :=
  withDefer logSync do
    let kubeConfig := v.GetString pf w.environ "kubeconfig"
    let namespaceName := v.GetString pf w.environ "namespace"
    logInfof ("Starting " ++ w.version ++ " with namespace " ++ namespaceName)
    let webhookHost := v.GetString pf w.environ "operator-webhook-host"
    let webhookPort := v.GetInt32 pf w.environ "operator-webhook-port"
    if webhookHost = "" then
      logFatal "required flag \x27operator-webhook-host\x27 not set (env variable: OPERATOR_WEBHOOK_HOST)"
    let x ← NewManager
      { Namespace := namespaceName,
        Host := webhookHost,
        Port := webhookPort,
        KubeConfig := kubeConfig,
        Logger := log,
        OperatorFingerprint := "eirini-x-helloworld" }
    let x ← x.AddExtension Extension.helloworld
    let err ← x.Start w.start
    logFatal (sprintError err)

/-- A command line cobra accepts: whether it asks for help (`--help` / `-h`,
the flag cobra adds to every command) and the values it gives to the declared
flags. -/
structure CommandLine where
  help : Bool
  given : Args

/-- The call `rootCmd.Execute()` of cobra: a command line pflag rejects makes
`Execute` return the error without calling `Run`; a command line that asks for
help makes it print the help text and return nil without calling `Run`;
otherwise the command line is parsed into the flag set, `Run` is called, and
`Execute` returns nil once `Run` has returned. -/
def Execute (v : Viper) (pf : FlagSet) (log : Logger) (args : Except String CommandLine)
    (w : World) : Proc (Option String) :=
  match args with
  | Except.error e => pure (some e)
  | Except.ok cl =>
    if cl.help = true then do
      emit Event.Help
      pure none
    else do
      Run v (pf.Parse cl.given) log w
      pure none

/-- The persistent flags `main` declares, in order. -/
def mainFlags : FlagSet :=
  let pf : FlagSet := []
  let pf := pf.StringP "kubeconfig" "c" "" "Path to a kubeconfig, not required in-cluster"
  let pf := pf.StringP "namespace" "n" "eirini" "Namespace to watch for Eirini apps"
  let pf := pf.StringP "operator-webhook-host" "w" ""
    "Hostname/IP under which the webhook server can be reached from the cluster"
  let pf := pf.StringP "operator-webhook-port" "p" "2999" "Port the webhook server listens on"
  pf

/-- The registry after the `BindPFlag` and `BindEnv` calls of `main`, in order. -/
def mainViper : Viper :=
  let pf := mainFlags
  let v := Viper.New
  let v := v.BindPFlag "kubeconfig" (pf.Lookup "kubeconfig")
  let v := v.BindPFlag "namespace" (pf.Lookup "namespace")
  let v := v.BindPFlag "operator-webhook-host" (pf.Lookup "operator-webhook-host")
  let v := v.BindPFlag "operator-webhook-port" (pf.Lookup "operator-webhook-port")
  let v := v.BindEnv ["kubeconfig"]
  let v := v.BindEnv ["namespace", "NAMESPACE"]
  let v := v.BindEnv ["operator-webhook-host", "OPERATOR_WEBHOOK_HOST"]
  let v := v.BindEnv ["operator-webhook-port", "OPERATOR_WEBHOOK_PORT"]
  v

/-- One invocation of the program: whether `zap.NewDevelopment()` fails, the
command line (an error when pflag rejects it), and the rest of the world. -/
structure Invocation where
  loggerErr : Option String
  args : Except String CommandLine
  world : World

/-- The function `main`. -/
def main (inv : Invocation) : Proc Unit := do
  match inv.loggerErr with
  | some err => gologFatal ("cannot initialize ZAP logger: " ++ err)
  | none => pure ()
  let log := Logger.zapDevelopment
  let pf := mainFlags
  let v := mainViper
  let err ← Execute v pf log inv.args inv.world
  match err with
  | some e =>
    gologFatal e
    osExit 1
  | none => pure ()

/-- The value the program resolves for an option key on a command line and
environment: what `viper.GetString(key)` returns inside `Run`. -/
def resolve (given : Args) (environ : Environ) (key : String) : String :=
  mainViper.GetString (mainFlags.Parse given) environ key

/-- The port the program resolves: what `viper.GetInt32("operator-webhook-port")`
returns inside `Run`. -/
def resolvePort (given : Args) (environ : Environ) : Int :=
  mainViper.GetInt32 (mainFlags.Parse given) environ "operator-webhook-port"

/-- Whether an event is a call on the external manager. -/
def Event.isManagerCall : Event → Bool
  | Event.NewManager _ => true
  | Event.AddExtension _ => true
  | Event.Start => true
  | _ => false

/-- The options `Run` passes to `eirinix.NewManager`, field by field as in the
struct literal of the source. -/
def runOptions (v : Viper) (pf : FlagSet) (log : Logger) (w : World) : ManagerOptions :=
  { Namespace := v.GetString pf w.environ "namespace",
    Host := v.GetString pf w.environ "operator-webhook-host",
    Port := v.GetInt32 pf w.environ "operator-webhook-port",
    KubeConfig := v.GetString pf w.environ "kubeconfig",
    Logger := log,
    OperatorFingerprint := "eirini-x-helloworld" }

/-- The startup message `Run` logs. -/
def startupMessage (v : Viper) (pf : FlagSet) (w : World) : String :=
  "Starting " ++ w.version ++ " with namespace " ++ v.GetString pf w.environ "namespace"

/-- The message of the fatal log line for a missing webhook host. -/
def missingHostMessage : String :=
  "required flag \x27operator-webhook-host\x27 not set (env variable: OPERATOR_WEBHOOK_HOST)"

/-- The four option keys of the program. -/
def optionKeys : List String :=
  ["kubeconfig", "namespace", "operator-webhook-host", "operator-webhook-port"]

/-- The environment variable bound to an option key (the CLI table of the spec). -/
def envName (key : String) : String :=
  if key = "kubeconfig" then "KUBECONFIG"
  else if key = "namespace" then "NAMESPACE"
  else if key = "operator-webhook-host" then "OPERATOR_WEBHOOK_HOST"
  else if key = "operator-webhook-port" then "OPERATOR_WEBHOOK_PORT"
  else ""

/-- The declared default of an option key (the CLI table of the spec). -/
def defaultValue (key : String) : String :=
  if key = "namespace" then "eirini"
  else if key = "operator-webhook-port" then "2999"
  else ""

/-- The value the precedence flag > environment variable > default gives. -/
def byPrecedence (flag env : Option String) (dflt : String) : String :=
  match flag, env with
  | some val, _ => val
  | none, some val => val
  | none, none => dflt

/-- The calls on the external manager in a trace, in order. -/
def managerCalls (t : List Event) : List Event := t.filter Event.isManagerCall

/-- The options of the `NewManager` calls in a trace, in order. -/
def newManagerOptions (t : List Event) : List ManagerOptions :=
  t.filterMap (fun e => match e with
    | Event.NewManager opts => some opts
    | _ => none)

/-- An environment given as a list of `NAME=value` bindings. -/
def environOf (vars : List (String × String)) : Environ := fun name => vars.lookup name

/-- A command line given as a list of flags (by long name) with their values. -/
def argsOf (flags : List (String × String)) : Args := fun name => flags.lookup name

/-- An invocation with no flags and an empty environment, so that
`operator-webhook-host` is not set at all. -/
def invNoHost : Invocation :=
  ⟨none, Except.ok ⟨false, argsOf []⟩, ⟨"dev", environOf [], StartResult.returns none⟩⟩

/-- An invocation with `OPERATOR_WEBHOOK_HOST=foo` and nothing else, whose
manager's `Start` returns the nil error. -/
def invStartNil : Invocation :=
  ⟨none, Except.ok ⟨false, argsOf []⟩,
    ⟨"dev", environOf [("OPERATOR_WEBHOOK_HOST", "foo")], StartResult.returns none⟩⟩

/-- An invocation with `OPERATOR_WEBHOOK_HOST=foo` and nothing else, whose
manager's `Start` returns an error. -/
def invStartErr : Invocation :=
  ⟨none, Except.ok ⟨false, argsOf []⟩,
    ⟨"dev", environOf [("OPERATOR_WEBHOOK_HOST", "foo")],
      StartResult.returns (some "listen tcp :2999: bind: address already in use")⟩⟩

/-- A registry, flag set and world in which the webhook host resolves to
`"foo"` from the environment and `Start` returns an error. -/
def worldStartErr : World :=
  ⟨"dev", environOf [("OPERATOR_WEBHOOK_HOST", "foo")], StartResult.returns (some "boom")⟩

/-- A world with an empty environment, whose manager's `Start` would return
the nil error. -/
def worldNoEnv : World :=
  ⟨"dev", environOf [], StartResult.returns none⟩

/-- A world with an empty environment whose manager's `Start` blocks. -/
def worldBlocks : World :=
  ⟨"dev", environOf [], StartResult.blocks⟩

/-- The flags `--operator-webhook-host=h --namespace= --operator-webhook-port=abc`. -/
def oddArgs : Args :=
  argsOf [("operator-webhook-host", "h"), ("namespace", ""), ("operator-webhook-port", "abc")]

/-- An invocation that asks for help, with no host set. -/
def invHelp : Invocation :=
  ⟨none, Except.ok ⟨true, argsOf []⟩, worldNoEnv⟩

/-! ## Theorems -/

theorem Run_apply (v : Viper) (pf : FlagSet) (log : Logger) (w : World) (t : List Event) :
    Run v pf log w t =
      if v.GetString pf w.environ "operator-webhook-host" = "" then
        (Step.exit 1, t ++ [Event.Infof (startupMessage v pf w), Event.Fatal missingHostMessage])
      else
        match w.start with
        | StartResult.returns err =>
          (Step.exit 1, t ++ [Event.Infof (startupMessage v pf w),
            Event.NewManager (runOptions v pf log w),
            Event.AddExtension Extension.helloworld, Event.Start,
            Event.Fatal (sprintError err)])
        | StartResult.blocks =>
          (Step.block, t ++ [Event.Infof (startupMessage v pf w),
            Event.NewManager (runOptions v pf log w),
            Event.AddExtension Extension.helloworld, Event.Start]) := by
  by_cases h : v.GetString pf w.environ "operator-webhook-host" = ""
  · simp [Run, withDefer, bind, Proc.bind, pure, logInfof, logFatal, emit, osExit, h,
      startupMessage, missingHostMessage]
  · cases hs : w.start <;>
      simp [Run, withDefer, bind, Proc.bind, pure, logInfof, logFatal, emit, osExit, h, hs,
        startupMessage, runOptions, NewManager, Manager.AddExtension, Manager.Start]

theorem exec_Run (v : Viper) (pf : FlagSet) (log : Logger) (w : World) :
    exec (Run v pf log w) =
      if v.GetString pf w.environ "operator-webhook-host" = "" then
        ⟨[Event.Infof (startupMessage v pf w), Event.Fatal missingHostMessage],
          Outcome.exited 1⟩
      else
        match w.start with
        | StartResult.returns err =>
          ⟨[Event.Infof (startupMessage v pf w), Event.NewManager (runOptions v pf log w),
            Event.AddExtension Extension.helloworld, Event.Start,
            Event.Fatal (sprintError err)], Outcome.exited 1⟩
        | StartResult.blocks =>
          ⟨[Event.Infof (startupMessage v pf w), Event.NewManager (runOptions v pf log w),
            Event.AddExtension Extension.helloworld, Event.Start], Outcome.blocked⟩ := by
  unfold exec
  rw [Run_apply]
  by_cases h : v.GetString pf w.environ "operator-webhook-host" = ""
  · simp [h]
  · cases hs : w.start <;> simp [h]

theorem exec_main (inv : Invocation) (given : Args) (hl : inv.loggerErr = none)
    (ha : inv.args = Except.ok ⟨false, given⟩) :
    exec (main inv) =
      exec (Run mainViper (mainFlags.Parse given) Logger.zapDevelopment inv.world) := by
  unfold exec main Execute
  simp only [hl, ha, bind, pure]
  by_cases h : mainViper.GetString (mainFlags.Parse given) inv.world.environ
      "operator-webhook-host" = ""
  · simp [h, Proc.bind, Run_apply]
  · cases hs : inv.world.start <;> simp [h, hs, Proc.bind, Run_apply]

theorem Flag.parse_Name (given : Args) (f : Flag) : (Flag.parse given f).Name = f.Name := by
  unfold Flag.parse
  cases given f.Name <;> rfl

theorem Lookup_Parse (pf : FlagSet) (given : Args) (name : String) :
    (pf.Parse given).Lookup name = (pf.Lookup name).map (Flag.parse given) := by
  induction pf with
  | nil => rfl
  | cons f rest ih =>
    have ih1 : List.find? (fun f => decide (f.Name = name)) (List.map (Flag.parse given) rest) =
        Option.map (Flag.parse given) (List.find? (fun f => decide (f.Name = name)) rest) := ih
    simp only [FlagSet.Parse, FlagSet.Lookup, List.map_cons, List.find?_cons,
      Flag.parse_Name]
    by_cases hn : f.Name = name
    · simp [hn]
    · simp [hn, ih1]

theorem find_bound (v : Viper) (pf : FlagSet) (given : Args) (environ : Environ)
    (key name envn : String) (f : Flag)
    (h1 : v.pflags.lookup key = some name) (h2 : v.env.lookup key = some envn)
    (h3 : pf.Lookup name = some f) (h4 : f.Name = name) (h5 : f.Changed = false) :
    v.find (pf.Parse given) environ key =
      some (byPrecedence (given name) (environ envn) f.Value) := by
  simp only [Viper.find, Lookup_Parse, h1, h2, h3, Option.bind, Option.map, Flag.parse, h4]
  cases given name <;> cases environ envn <;> simp [byPrecedence, Option.filter, h5]

theorem find_main (given : Args) (environ : Environ) (key : String)
    (hk : key ∈ optionKeys) :
    mainViper.find (mainFlags.Parse given) environ key =
      some (byPrecedence (given key) (environ (envName key)) (defaultValue key)) := by
  simp only [optionKeys, List.mem_cons, List.mem_singleton, List.not_mem_nil, or_false] at hk
  rcases hk with rfl | rfl | rfl | rfl
  · exact find_bound mainViper mainFlags given environ "kubeconfig" "kubeconfig" "KUBECONFIG"
      ⟨"kubeconfig", "c", "Path to a kubeconfig, not required in-cluster", "", "", false⟩
      (by decide) (by decide) (by decide) rfl rfl
  · exact find_bound mainViper mainFlags given environ "namespace" "namespace" "NAMESPACE"
      ⟨"namespace", "n", "Namespace to watch for Eirini apps", "eirini", "eirini", false⟩
      (by decide) (by decide) (by decide) rfl rfl
  · exact find_bound mainViper mainFlags given environ "operator-webhook-host"
      "operator-webhook-host" "OPERATOR_WEBHOOK_HOST"
      ⟨"operator-webhook-host", "w",
        "Hostname/IP under which the webhook server can be reached from the cluster",
        "", "", false⟩
      (by decide) (by decide) (by decide) rfl rfl
  · exact find_bound mainViper mainFlags given environ "operator-webhook-port"
      "operator-webhook-port" "OPERATOR_WEBHOOK_PORT"
      ⟨"operator-webhook-port", "p", "Port the webhook server listens on", "2999", "2999",
        false⟩
      (by decide) (by decide) (by decide) rfl rfl

theorem resolve_eq (given : Args) (environ : Environ) (key : String)
    (hk : key ∈ optionKeys) :
    resolve given environ key =
      byPrecedence (given key) (environ (envName key)) (defaultValue key) := by
  simp [resolve, Viper.GetString, find_main given environ key hk]

theorem resolvePort_eq (given : Args) (environ : Environ) :
    resolvePort given environ =
      ToInt32 (byPrecedence (given "operator-webhook-port")
        (environ "OPERATOR_WEBHOOK_PORT") "2999") := by
  have h := find_main given environ "operator-webhook-port" (by decide)
  simp only [resolvePort, Viper.GetInt32, h]
  rfl

theorem flag_port_text (given : Args) (environ : Environ) :
    mainViper.GetInt32 (mainFlags.Parse given) environ "operator-webhook-port" =
      ToInt32 (resolve given environ "operator-webhook-port") := by
  have h := resolvePort_eq given environ
  rw [resolve_eq given environ "operator-webhook-port" (by decide)]
  exact h

theorem exec_main_help :
    exec (main invHelp) = ⟨[Event.Help], Outcome.exited 0⟩ := by
  decide

/-- C1: for every run of `Run` in which `operator-webhook-host` resolves to the
empty string, `Run` logs the startup message, logs the fatal error for the
missing flag and ends the process with status 1; no call is made on the
manager (`NewManager`, `AddExtension`, `Start`) on that run. -/
theorem missing_host_fatal_before_manager (v : Viper) (pf : FlagSet) (log : Logger)
    (w : World) (h : v.GetString pf w.environ "operator-webhook-host" = "") :
    exec (Run v pf log w) =
      ⟨[Event.Infof ("Starting " ++ w.version ++ " with namespace " ++
            v.GetString pf w.environ "namespace"),
          Event.Fatal
            "required flag \x27operator-webhook-host\x27 not set (env variable: OPERATOR_WEBHOOK_HOST)"],
        Outcome.exited 1⟩ ∧
      managerCalls (exec (Run v pf log w)).trace = [] := by
  rw [exec_Run, if_pos h]
  exact ⟨rfl, rfl⟩

theorem missing_host_fatal_before_manager_witness :
    mainViper.GetString (mainFlags.Parse (argsOf [])) worldNoEnv.environ
        "operator-webhook-host" = "" ∧
      (exec (Run mainViper (mainFlags.Parse (argsOf [])) Logger.zapDevelopment worldNoEnv) =
        ⟨[Event.Infof ("Starting " ++ worldNoEnv.version ++ " with namespace " ++
              mainViper.GetString (mainFlags.Parse (argsOf [])) worldNoEnv.environ "namespace"),
            Event.Fatal
              "required flag \x27operator-webhook-host\x27 not set (env variable: OPERATOR_WEBHOOK_HOST)"],
          Outcome.exited 1⟩ ∧
        managerCalls (exec (Run mainViper (mainFlags.Parse (argsOf [])) Logger.zapDevelopment
          worldNoEnv)).trace = []) :=
  ⟨by decide,
    missing_host_fatal_before_manager mainViper (mainFlags.Parse (argsOf []))
      Logger.zapDevelopment worldNoEnv (by decide)⟩

/-- C2: when `operator-webhook-host` is set to a value, by the flag (whatever
the environment holds, so also when both are set) or by `OPERATOR_WEBHOOK_HOST`
with the flag absent, the resolved webhook host is exactly that value; with
both set it is therefore the flag's value and not the environment's. -/
theorem host_resolves_to_set_value (given : Args) (environ : Environ) (val : String)
    (h : given "operator-webhook-host" = some val ∨
      (given "operator-webhook-host" = none ∧ environ "OPERATOR_WEBHOOK_HOST" = some val)) :
    resolve given environ "operator-webhook-host" = val := by
  have hr := resolve_eq given environ "operator-webhook-host" (by decide)
  have he : envName "operator-webhook-host" = "OPERATOR_WEBHOOK_HOST" := by decide
  rw [he] at hr
  rcases h with h | ⟨h1, h2⟩
  · rw [hr, h]; rfl
  · rw [hr, h1, h2]; rfl

theorem host_resolves_to_set_value_witness :
    (argsOf [("operator-webhook-host", "10.0.0.1")] "operator-webhook-host" = some "10.0.0.1" ∨
      (argsOf [("operator-webhook-host", "10.0.0.1")] "operator-webhook-host" = none ∧
        environOf [("OPERATOR_WEBHOOK_HOST", "10.0.0.2")] "OPERATOR_WEBHOOK_HOST" =
          some "10.0.0.1")) ∧
      resolve (argsOf [("operator-webhook-host", "10.0.0.1")])
        (environOf [("OPERATOR_WEBHOOK_HOST", "10.0.0.2")]) "operator-webhook-host" =
          "10.0.0.1" :=
  ⟨Or.inl (by decide),
    (host_resolves_to_set_value (argsOf [("operator-webhook-host", "10.0.0.1")])
      (environOf [("OPERATOR_WEBHOOK_HOST", "10.0.0.2")]) "10.0.0.1"
      (Or.inl (by decide)))⟩

/-- C3: with no flag given and, of the bound environment variables, only
`OPERATOR_WEBHOOK_HOST=foo` set, the resolved namespace is `"eirini"`, the
resolved port (the default text `"2999"` read through `GetInt32`) is the
integer 2999, the resolved kubeconfig is empty and the host is `"foo"`. -/
theorem default_resolution (given : Args) (environ : Environ)
    (hg : ∀ key, given key = none)
    (hhost : environ "OPERATOR_WEBHOOK_HOST" = some "foo")
    (hns : environ "NAMESPACE" = none) (hport : environ "OPERATOR_WEBHOOK_PORT" = none)
    (hkube : environ "KUBECONFIG" = none) :
    resolve given environ "namespace" = "eirini" ∧
      resolvePort given environ = 2999 ∧
      resolve given environ "kubeconfig" = "" ∧
      resolve given environ "operator-webhook-host" = "foo" := by
  have e1 : envName "namespace" = "NAMESPACE" := by decide
  have e2 : envName "kubeconfig" = "KUBECONFIG" := by decide
  have e3 : envName "operator-webhook-host" = "OPERATOR_WEBHOOK_HOST" := by decide
  refine ⟨?_, ?_, ?_, ?_⟩
  · rw [resolve_eq given environ "namespace" (by decide), hg, e1, hns]; decide
  · rw [resolvePort_eq, hg, hport]; decide
  · rw [resolve_eq given environ "kubeconfig" (by decide), hg, e2, hkube]; decide
  · rw [resolve_eq given environ "operator-webhook-host" (by decide), hg, e3, hhost]; rfl

theorem default_resolution_witness :
    (∀ key, argsOf [] key = none) ∧
      environOf [("OPERATOR_WEBHOOK_HOST", "foo")] "OPERATOR_WEBHOOK_HOST" = some "foo" ∧
      environOf [("OPERATOR_WEBHOOK_HOST", "foo")] "NAMESPACE" = none ∧
      environOf [("OPERATOR_WEBHOOK_HOST", "foo")] "OPERATOR_WEBHOOK_PORT" = none ∧
      environOf [("OPERATOR_WEBHOOK_HOST", "foo")] "KUBECONFIG" = none ∧
      (resolve (argsOf []) (environOf [("OPERATOR_WEBHOOK_HOST", "foo")]) "namespace" =
          "eirini" ∧
        resolvePort (argsOf []) (environOf [("OPERATOR_WEBHOOK_HOST", "foo")]) = 2999 ∧
        resolve (argsOf []) (environOf [("OPERATOR_WEBHOOK_HOST", "foo")]) "kubeconfig" = "" ∧
        resolve (argsOf []) (environOf [("OPERATOR_WEBHOOK_HOST", "foo")])
          "operator-webhook-host" = "foo") :=
  ⟨fun _ => rfl, by decide, by decide, by decide, by decide,
    default_resolution (argsOf []) (environOf [("OPERATOR_WEBHOOK_HOST", "foo")])
      (fun _ => rfl) (by decide) (by decide) (by decide) (by decide)⟩

/-- C4: each of the four options resolves with precedence flag > environment
variable > default: the flag's value when the flag is given, otherwise the
value of the bound variable (`KUBECONFIG`, `NAMESPACE`, `OPERATOR_WEBHOOK_HOST`,
`OPERATOR_WEBHOOK_PORT`) when it is set, otherwise the declared default; the
port is that text read as an integer; `--namespace=custom` with
`NAMESPACE=other` resolves to `"custom"`. -/
theorem flag_env_default_precedence (given : Args) (environ : Environ) (key : String)
    (hk : key ∈ optionKeys) :
    resolve given environ key =
        byPrecedence (given key) (environ (envName key)) (defaultValue key) ∧
      resolvePort given environ = ToInt32 (resolve given environ "operator-webhook-port") ∧
      resolve (argsOf [("namespace", "custom")]) (environOf [("NAMESPACE", "other")])
        "namespace" = "custom" := by
  refine ⟨resolve_eq given environ key hk, ?_, ?_⟩
  · rw [resolvePort_eq, resolve_eq given environ "operator-webhook-port" (by decide)]
    rfl
  · rw [resolve_eq _ _ "namespace" (by decide)]
    decide

theorem flag_env_default_precedence_witness :
    "namespace" ∈ optionKeys ∧
      (resolve (argsOf []) (environOf [("NAMESPACE", "other")]) "namespace" =
          byPrecedence (argsOf [] "namespace")
            (environOf [("NAMESPACE", "other")] (envName "namespace"))
            (defaultValue "namespace") ∧
        resolvePort (argsOf []) (environOf [("NAMESPACE", "other")]) =
          ToInt32 (resolve (argsOf []) (environOf [("NAMESPACE", "other")])
            "operator-webhook-port") ∧
        resolve (argsOf [("namespace", "custom")]) (environOf [("NAMESPACE", "other")])
          "namespace" = "custom") :=
  ⟨by decide,
    flag_env_default_precedence (argsOf []) (environOf [("NAMESPACE", "other")])
      "namespace" (by decide)⟩

/-- C5: for every run with a non-empty resolved webhook host, `NewManager` is
called with exactly one options value, whose `OperatorFingerprint` is
`"eirini-x-helloworld"` and whose `Namespace`, `Host`, `Port` and `KubeConfig`
are the resolved namespace, webhook host, webhook port and kubeconfig path,
with the process-wide logger as `Logger`. -/
theorem manager_options_carry_resolved_values (v : Viper) (pf : FlagSet) (log : Logger)
    (w : World) (h : v.GetString pf w.environ "operator-webhook-host" ≠ "") :
    newManagerOptions (exec (Run v pf log w)).trace =
      [{ Namespace := v.GetString pf w.environ "namespace",
         Host := v.GetString pf w.environ "operator-webhook-host",
         Port := v.GetInt32 pf w.environ "operator-webhook-port",
         KubeConfig := v.GetString pf w.environ "kubeconfig",
         Logger := log,
         OperatorFingerprint := "eirini-x-helloworld" }] := by
  rw [exec_Run, if_neg h]
  cases w.start <;> rfl

theorem manager_options_carry_resolved_values_witness :
    mainViper.GetString (mainFlags.Parse (argsOf [("namespace", "custom")]))
        worldStartErr.environ "operator-webhook-host" ≠ "" ∧
      newManagerOptions (exec (Run mainViper (mainFlags.Parse (argsOf [("namespace", "custom")]))
          Logger.zapDevelopment worldStartErr)).trace =
        [{ Namespace := mainViper.GetString (mainFlags.Parse (argsOf [("namespace", "custom")]))
             worldStartErr.environ "namespace",
           Host := mainViper.GetString (mainFlags.Parse (argsOf [("namespace", "custom")]))
             worldStartErr.environ "operator-webhook-host",
           Port := mainViper.GetInt32 (mainFlags.Parse (argsOf [("namespace", "custom")]))
             worldStartErr.environ "operator-webhook-port",
           KubeConfig := mainViper.GetString (mainFlags.Parse (argsOf [("namespace", "custom")]))
             worldStartErr.environ "kubeconfig",
           Logger := Logger.zapDevelopment,
           OperatorFingerprint := "eirini-x-helloworld" }] :=
  ⟨by decide,
    manager_options_carry_resolved_values mainViper
      (mainFlags.Parse (argsOf [("namespace", "custom")])) Logger.zapDevelopment worldStartErr
      (by decide)⟩

/-- C6: when the manager's `Start` returns a non-nil error `e`, `Run` logs `e`
at fatal level and the process ends with status 1, which is non-zero; the fatal
line is the last call of the run and `Start` is called once. -/
theorem start_error_is_fatal (v : Viper) (pf : FlagSet) (log : Logger) (w : World)
    (e : String) (h : v.GetString pf w.environ "operator-webhook-host" ≠ "")
    (hs : w.start = StartResult.returns (some e)) :
    exec (Run v pf log w) =
        ⟨[Event.Infof (startupMessage v pf w), Event.NewManager (runOptions v pf log w),
          Event.AddExtension Extension.helloworld, Event.Start, Event.Fatal e],
          Outcome.exited 1⟩ ∧
      (exec (Run v pf log w)).trace.getLast? = some (Event.Fatal e) ∧
      (exec (Run v pf log w)).trace.count Event.Start = 1 ∧
      (exec (Run v pf log w)).outcome ≠ Outcome.exited 0 := by
  have hx : exec (Run v pf log w) =
      ⟨[Event.Infof (startupMessage v pf w), Event.NewManager (runOptions v pf log w),
        Event.AddExtension Extension.helloworld, Event.Start, Event.Fatal e],
        Outcome.exited 1⟩ := by
    rw [exec_Run, if_neg h, hs]
    rfl
  rw [hx]
  refine ⟨rfl, rfl, ?_, ?_⟩
  · simp [List.count_cons]
  · simp

theorem start_error_is_fatal_witness :
    mainViper.GetString (mainFlags.Parse (argsOf [])) worldStartErr.environ
        "operator-webhook-host" ≠ "" ∧
      worldStartErr.start = StartResult.returns (some "boom") ∧
      (exec (Run mainViper (mainFlags.Parse (argsOf [])) Logger.zapDevelopment worldStartErr) =
          ⟨[Event.Infof (startupMessage mainViper (mainFlags.Parse (argsOf [])) worldStartErr),
            Event.NewManager (runOptions mainViper (mainFlags.Parse (argsOf []))
              Logger.zapDevelopment worldStartErr),
            Event.AddExtension Extension.helloworld, Event.Start, Event.Fatal "boom"],
            Outcome.exited 1⟩ ∧
        (exec (Run mainViper (mainFlags.Parse (argsOf [])) Logger.zapDevelopment
          worldStartErr)).trace.getLast? = some (Event.Fatal "boom") ∧
        (exec (Run mainViper (mainFlags.Parse (argsOf [])) Logger.zapDevelopment
          worldStartErr)).trace.count Event.Start = 1 ∧
        (exec (Run mainViper (mainFlags.Parse (argsOf [])) Logger.zapDevelopment
          worldStartErr)).outcome ≠ Outcome.exited 0) :=
  ⟨by decide, rfl,
    start_error_is_fatal mainViper (mainFlags.Parse (argsOf [])) Logger.zapDevelopment
      worldStartErr "boom" (by decide) rfl⟩

/-- C7, as the code has it: once `Run` is reached, the process ends with
status 1 when `operator-webhook-host` is missing and also whenever the
manager's `Start` returns, with an error or with the nil error; while `Start`
blocks the process does not exit; no path through `Run` ends with status 0. -/
theorem exit_status_of_run (v : Viper) (pf : FlagSet) (log : Logger) (w : World) :
    (exec (Run v pf log w)).outcome =
        (if v.GetString pf w.environ "operator-webhook-host" = "" then
          Outcome.exited 1
        else
          match w.start with
          | StartResult.returns _ => Outcome.exited 1
          | StartResult.blocks => Outcome.blocked) ∧
      (exec (Run v pf log w)).outcome ≠ Outcome.exited 0 := by
  rw [exec_Run]
  by_cases h : v.GetString pf w.environ "operator-webhook-host" = ""
  · simp [h]
  · cases w.start <;> simp [h]

/-- C7, the claim as stated fails: with `OPERATOR_WEBHOOK_HOST=foo` and a
manager whose `Start` returns without an error, the host is present and `Start`
returned the nil error, yet the process ends with status 1, not 0. -/
theorem clean_start_return_exits_one :
    resolve (argsOf []) invStartNil.world.environ "operator-webhook-host" = "foo" ∧
      invStartNil.world.start = StartResult.returns none ∧
      exec (main invStartNil) =
        ⟨[Event.Infof "Starting dev with namespace eirini",
          Event.NewManager
            { Namespace := "eirini", Host := "foo", Port := 2999, KubeConfig := "",
              Logger := Logger.zapDevelopment, OperatorFingerprint := "eirini-x-helloworld" },
          Event.AddExtension Extension.helloworld, Event.Start, Event.Fatal "<nil>"],
          Outcome.exited 1⟩ ∧
      ¬ (exec (main invStartNil)).outcome = Outcome.exited 0 := by
  decide

/-- C8, the code at the failing inputs: on the fatal exit for a missing
`operator-webhook-host` and on the fatal exit after `Start` returned an error,
the process ends with status 1 and the deferred `log.Sync()` is not among the
calls of the run. -/
theorem fatal_exits_skip_deferred_sync :
    (exec (main invNoHost)).outcome = Outcome.exited 1 ∧
      Event.Sync ∉ (exec (main invNoHost)).trace ∧
      (exec (main invStartErr)).outcome = Outcome.exited 1 ∧
      Event.Sync ∉ (exec (main invStartErr)).trace := by
  decide

/-- C9: for every run with a non-empty resolved webhook host, the calls on the
external manager are, in this order and nothing else: one `NewManager`, one
`AddExtension` with the helloworld extension, one `Start`, whatever `Start`
does; so `Start` never comes before `AddExtension` and is never called twice. -/
theorem manager_calls_linear (v : Viper) (pf : FlagSet) (log : Logger) (w : World)
    (h : v.GetString pf w.environ "operator-webhook-host" ≠ "") :
    managerCalls (exec (Run v pf log w)).trace =
      [Event.NewManager (runOptions v pf log w),
        Event.AddExtension Extension.helloworld, Event.Start] := by
  rw [exec_Run, if_neg h]
  cases w.start <;> rfl

theorem manager_calls_linear_witness :
    mainViper.GetString (mainFlags.Parse (argsOf [("operator-webhook-host", "h")]))
        worldStartErr.environ "operator-webhook-host" ≠ "" ∧
      managerCalls (exec (Run mainViper
          (mainFlags.Parse (argsOf [("operator-webhook-host", "h")]))
          Logger.zapDevelopment worldStartErr)).trace =
        [Event.NewManager (runOptions mainViper
            (mainFlags.Parse (argsOf [("operator-webhook-host", "h")]))
            Logger.zapDevelopment worldStartErr),
          Event.AddExtension Extension.helloworld, Event.Start] :=
  ⟨by decide,
    manager_calls_linear mainViper (mainFlags.Parse (argsOf [("operator-webhook-host", "h")]))
      Logger.zapDevelopment worldStartErr (by decide)⟩

/-- C10: the emptiness check on the webhook host is the only validation: on
every command line and environment whose resolved host is non-empty, `Run`
constructs the manager, gives it the extension and starts it, with the resolved
namespace and kubeconfig as they are (an empty namespace included) and with the
port text read through `GetInt32`, which yields 0 for the text `"abc"` instead
of rejecting it. -/
theorem host_check_is_only_validation (given : Args) (log : Logger) (w : World)
    (h : resolve given w.environ "operator-webhook-host" ≠ "") :
    managerCalls (exec (Run mainViper (mainFlags.Parse given) log w)).trace =
        [Event.NewManager
            { Namespace := resolve given w.environ "namespace",
              Host := resolve given w.environ "operator-webhook-host",
              Port := ToInt32 (resolve given w.environ "operator-webhook-port"),
              KubeConfig := resolve given w.environ "kubeconfig",
              Logger := log,
              OperatorFingerprint := "eirini-x-helloworld" },
          Event.AddExtension Extension.helloworld, Event.Start] ∧
      ToInt32 "abc" = 0 := by
  have hh : mainViper.GetString (mainFlags.Parse given) w.environ
      "operator-webhook-host" ≠ "" := h
  have hp : mainViper.GetInt32 (mainFlags.Parse given) w.environ
      "operator-webhook-port" =
      ToInt32 (resolve given w.environ "operator-webhook-port") :=
    flag_port_text given w.environ
  refine ⟨?_, by decide⟩
  rw [exec_Run, if_neg hh, ← hp]
  cases w.start <;> rfl

theorem host_check_is_only_validation_witness :
    resolve oddArgs worldBlocks.environ "operator-webhook-host" ≠ "" ∧
      resolve oddArgs worldBlocks.environ "namespace" = "" ∧
      resolve oddArgs worldBlocks.environ "operator-webhook-port" = "abc" ∧
      (managerCalls (exec (Run mainViper (mainFlags.Parse oddArgs) Logger.zapDevelopment
          worldBlocks)).trace =
          [Event.NewManager
              { Namespace := resolve oddArgs worldBlocks.environ "namespace",
                Host := resolve oddArgs worldBlocks.environ "operator-webhook-host",
                Port := ToInt32 (resolve oddArgs worldBlocks.environ "operator-webhook-port"),
                KubeConfig := resolve oddArgs worldBlocks.environ "kubeconfig",
                Logger := Logger.zapDevelopment,
                OperatorFingerprint := "eirini-x-helloworld" },
            Event.AddExtension Extension.helloworld, Event.Start] ∧
        ToInt32 "abc" = 0) :=
  ⟨by decide, by decide, by decide,
    host_check_is_only_validation oddArgs Logger.zapDevelopment worldBlocks (by decide)⟩

end EirinixSample
